import Mathlib

/-
Shallow embedding of the SMAF-Development-Kit configuration subsystem
(src/SMAF-Development-Kit/WiFiConfig.cpp and SMAF-Development-Kit.ino).

Arduino `String` values are modeled as `List Char`.  The Arduino string
primitives used by the code are modeled with their ESP32 core semantics:
`String::indexOf(sub, from)` returns -1 when `from >= length` or when the
substring does not occur at or after `from`; `String::substring(l, r)`
converts both arguments to unsigned 32-bit integers, swaps them when
`l > r`, returns the empty string when `l >= length`, and clamps `r` to
the length; `String::operator[]` out of range yields the NUL character;
`String::toInt` is newlib `atol` (clamping to the 32-bit long range on
overflow).  The Preferences (NVS) store is modeled as an association
list keyed by (namespace, key).
-/

/-- WiFiConfig.cpp lines 538-556: convert one hexadecimal character to its
numeric value; any non-hex-digit character yields 0. -/
def hexToByte (c : Char) : Nat :=
  if '0' ≤ c ∧ c ≤ '9' then c.toNat - ('0').toNat
  else if 'a' ≤ c ∧ c ≤ 'f' then c.toNat - ('a').toNat + 10
  else if 'A' ≤ c ∧ c ≤ 'F' then c.toNat - ('A').toNat + 10
  else 0

/-- WiFiConfig.cpp lines 458-492: one left-to-right pass URL decoding.
On `%`, the two following characters are read with `String::operator[]`
(out of range gives NUL, i.e. `Char.ofNat 0`) and the loop index skips
them; `+` becomes a space; every other character is copied unchanged. -/
def decodeResponse : List Char → List Char
  | [] => []
  | c :: rest =>
    if c = '%' then
      match rest with
      | x :: y :: rest2 => Char.ofNat (hexToByte x * 16 + hexToByte y) :: decodeResponse rest2
      | [x] => [Char.ofNat (hexToByte x * 16 + hexToByte (Char.ofNat 0))]
      | [] => [Char.ofNat (hexToByte (Char.ofNat 0) * 16 + hexToByte (Char.ofNat 0))]
    else if c = '+' then ' ' :: decodeResponse rest
    else c :: decodeResponse rest

/-- WiFiConfig.cpp lines 505-522: if the string is nonempty, the loop
returns the original string at the first non-space character; if every
character is a space it returns the empty string; an empty string is
returned unchanged. -/
def removeSpaces (str : List Char) : List Char :=
  if 0 < str.length then
    if str.any (fun c => c != ' ') then str else []
  else str

/-- Conversion of a C `int` value to `unsigned int` (32-bit), used by
`String::substring` and by `String::indexOf`'s `fromIndex` parameter. -/
def uint32Of (i : Int) : Nat := (i % (4294967296 : Int)).toNat

/-- ESP32 `String::substring(left, right)`: both arguments are unsigned;
they are swapped when `left > right`; `left >= length` gives the empty
string; `right` is clamped to the length. -/
def substringCpp (data : List Char) (left right : Int) : List Char :=
  let l0 := uint32Of left
  let r0 := uint32Of right
  let l := min l0 r0
  let r := max l0 r0
  if data.length ≤ l then []
  else (data.take (min r data.length)).drop l

/-- Scan for the first match of `sub` at or after the current position,
mirroring `strstr` on the remaining buffer. `i` is the absolute index of
the head of `l` within the full string. -/
def findSub (sub : List Char) : List Char → Nat → Int
  | l, i =>
    if sub.isPrefixOf l then (i : Int)
    else
      match l with
      | [] => -1
      | _ :: t => findSub sub t (i + 1)

/-- ESP32 `String::indexOf(sub, fromIndex)`: -1 when `fromIndex >= length`,
otherwise the absolute index of the first occurrence at or after
`fromIndex`, or -1 when there is none. -/
def strIndexOfFrom (data sub : List Char) (fromIndex : Nat) : Int :=
  if data.length ≤ fromIndex then -1 else findSub sub (data.drop fromIndex) fromIndex

/-- ESP32 `String::indexOf(sub)`, i.e. search from index 0. -/
def strIndexOf (data sub : List Char) : Int := strIndexOfFrom data sub 0

/-- WiFiConfig.cpp lines 429-446: `WiFiConfig::parseFieldValue`.
`index` is computed as `indexOf(fieldId) + fieldId.length() + 1` without
checking the -1 sentinel; `endIndex` is `min(amp != -1 ? amp : http, len)`
computed on `int`; the substring call then applies unsigned conversions. -/
def parseFieldValue (data fieldId : List Char) : List Char :=
  let index : Int := strIndexOf data fieldId + (fieldId.length : Int) + 1
  let ampIndex : Int := strIndexOfFrom data ['&'] (uint32Of index)
  let httpIndex : Int := strIndexOfFrom data [' ', 'H', 'T', 'T', 'P'] (uint32Of index)
  let endIndex : Int := min (if ampIndex ≠ -1 then ampIndex else httpIndex) ((data.length : Int))
  let value : List Char := substringCpp data index endIndex
  if value = [] then [] else removeSpaces (decodeResponse value)

/-- The whitespace characters skipped by newlib `atol`. -/
def isSpaceChar (c : Char) : Bool :=
  c == ' ' || c == '\t' || c == '\n' || c == '\x0b' || c == '\x0c' || c == '\r'

/-- Decimal value of a digit run, as accumulated by `atol`. -/
def digitsToNat (ds : List Char) : Nat :=
  ds.foldl (fun acc c => acc * 10 + (c.toNat - 48)) 0

/-- Clamp a nonnegative parsed value to the 32-bit `long` range
(newlib `strtol` returns LONG_MAX on positive overflow). -/
def clampPos (n : Nat) : Int := if 2147483647 < n then 2147483647 else (n : Int)

/-- Clamp a negated parsed value to the 32-bit `long` range
(newlib `strtol` returns LONG_MIN on negative overflow). -/
def clampNeg (n : Nat) : Int := if 2147483648 < n then -2147483648 else -((n : Int))

/-- Arduino `String::toInt`, i.e. newlib `atol`: skip whitespace, read an
optional sign, accumulate leading decimal digits (none parsed gives 0),
clamping to the `long` range. -/
def atol (str : List Char) : Int :=
  match str.dropWhile isSpaceChar with
  | [] => 0
  | c :: rest =>
    if c = '-' then clampNeg (digitsToNat (rest.takeWhile Char.isDigit))
    else if c = '+' then clampPos (digitsToNat (rest.takeWhile Char.isDigit))
    else clampPos (digitsToNat ((c :: rest).takeWhile Char.isDigit))

/-- WiFiConfig.cpp lines 568-580: `WiFiConfig::stringToUint16`. The string
is converted with `toInt`; values in [0, 65535] are returned as `uint16_t`,
anything else gives 0. -/
def stringToUint16 (str : List Char) : Nat :=
  let intValue : Int := atol str
  if 0 ≤ intValue ∧ intValue ≤ 65535 then intValue.toNat else 0

/-- The ten decimal digit characters. -/
def decimalDigits : List Char := ['0', '1', '2', '3', '4', '5', '6', '7', '8', '9']

/-- A value stored in the Preferences (NVS) key-value store: either a
string (putString) or an unsigned 16-bit integer (putUShort). -/
inductive PrefVal
  | vstr (s : String)
  | vushort (n : Nat)
deriving DecidableEq

/-- The persistent key-value store, keyed by (namespace, key). -/
def Store : Type := List ((String × String) × PrefVal)

/-- Look up a (namespace, key) pair in the store. -/
def prefLookup (st : Store) (ns key : String) : Option PrefVal :=
  match st with
  | [] => none
  | ((n, k), v) :: t => if n = ns ∧ k = key then some v else prefLookup t ns key

/-- Write a (namespace, key) pair, replacing an existing entry. -/
def prefPut (st : Store) (ns key : String) (v : PrefVal) : Store :=
  match st with
  | [] => [((ns, key), v)]
  | ((n, k), w) :: t =>
    if n = ns ∧ k = key then ((n, k), v) :: t
    else ((n, k), w) :: prefPut t ns key v

/-- `Preferences::putString`. -/
def prefPutString (st : Store) (ns key : String) (s : String) : Store :=
  prefPut st ns key (PrefVal.vstr s)

/-- `Preferences::putUShort`; the parameter has type `uint16_t`. -/
def prefPutUShort (st : Store) (ns key : String) (n : Nat) : Store :=
  prefPut st ns key (PrefVal.vushort (n % 65536))

/-- `Preferences::getString(key, default)`: the default is returned when
the key is missing or holds a value of another type. -/
def prefGetString (st : Store) (ns key : String) (dflt : String) : String :=
  match prefLookup st ns key with
  | some (PrefVal.vstr s) => s
  | _ => dflt

/-- `Preferences::getUShort(key, default)`. -/
def prefGetUShort (st : Store) (ns key : String) (dflt : Nat) : Nat :=
  match prefLookup st ns key with
  | some (PrefVal.vushort n) => n
  | _ => dflt

/-- WiFiConfig.h: preference key for the Wi-Fi network name. -/
def NETWORK_NAME : String := "netName"

/-- WiFiConfig.h: preference key for the Wi-Fi network password. -/
def NETWORK_PASS : String := "netPass"

/-- WiFiConfig.h: preference key for the MQTT server address. -/
def MQTT_SERVER_ADDRESS : String := "mqttSrvAdr"

/-- WiFiConfig.h: preference key for the MQTT server port. -/
def MQTT_SERVER_PORT : String := "mqttSrvPort"

/-- WiFiConfig.h: preference key for the MQTT username. -/
def MQTT_USERNAME : String := "mqttUser"

/-- WiFiConfig.h: preference key for the MQTT password. -/
def MQTT_PASS : String := "mqttPass"

/-- WiFiConfig.h: preference key for the MQTT client id. -/
def MQTT_CLIENT_ID : String := "mqttClient"

/-- WiFiConfig.h: preference key for the MQTT topic. -/
def MQTT_TOPIC : String := "mqttTopic"

/-- The configuration-record members of the `WiFiConfig` class. -/
structure WiFiConfigState where
  _preferencesNamespace : String
  _networkName : String
  _networkPass : String
  _mqttServerAddress : String
  _mqttServerPort : Nat
  _mqttUsername : String
  _mqttPass : String
  _mqttClientId : String
  _mqttTopic : String
  _isConfigValid : Bool
deriving DecidableEq

/-- WiFiConfig.cpp lines 232-260: `WiFiConfig::loadPreferences`. Each of
the eight fields is read by its fixed key with an empty/zero default, then
`_isConfigValid` is recomputed from the loaded values. -/
def loadPreferences (c : WiFiConfigState) (st : Store) : WiFiConfigState :=
  let ns := c._preferencesNamespace
  let nn := prefGetString st ns NETWORK_NAME ("")
  let np := prefGetString st ns NETWORK_PASS ("")
  let sa := prefGetString st ns MQTT_SERVER_ADDRESS ("")
  let sp := prefGetUShort st ns MQTT_SERVER_PORT 0
  let mu := prefGetString st ns MQTT_USERNAME ("")
  let mp := prefGetString st ns MQTT_PASS ("")
  let mc := prefGetString st ns MQTT_CLIENT_ID ("")
  let mt := prefGetString st ns MQTT_TOPIC ("")
  { c with
    _networkName := nn
    _networkPass := np
    _mqttServerAddress := sa
    _mqttServerPort := sp
    _mqttUsername := mu
    _mqttPass := mp
    _mqttClientId := mc
    _mqttTopic := mt
    _isConfigValid :=
      if nn = "" ∨ np = "" ∨ sa = "" ∨ sp = 0 ∨ mu = "" ∨ mp = "" ∨ mc = "" ∨ mt = ""
      then false else true }

/-- WiFiConfig.cpp lines 273-297: `WiFiConfig::savePreferences`. The eight
fields are written under the same fixed keys; the object state (in
particular `_isConfigValid`) is not modified. -/
def savePreferences (c : WiFiConfigState) (st : Store) : WiFiConfigState × Store :=
  let ns := c._preferencesNamespace
  let st1 := prefPutString st ns NETWORK_NAME c._networkName
  let st2 := prefPutString st1 ns NETWORK_PASS c._networkPass
  let st3 := prefPutString st2 ns MQTT_SERVER_ADDRESS c._mqttServerAddress
  let st4 := prefPutUShort st3 ns MQTT_SERVER_PORT c._mqttServerPort
  let st5 := prefPutString st4 ns MQTT_USERNAME c._mqttUsername
  let st6 := prefPutString st5 ns MQTT_PASS c._mqttPass
  let st7 := prefPutString st6 ns MQTT_CLIENT_ID c._mqttClientId
  let st8 := prefPutString st7 ns MQTT_TOPIC c._mqttTopic
  (c, st8)

/-- WiFiConfig.cpp lines 328-330: `WiFiConfig::isConfigValid`. -/
def isConfigValid (c : WiFiConfigState) : Bool := c._isConfigValid

/-- Validity of a configuration record as the spec states it (section 3):
every field non-empty and port nonzero. -/
def isValidRecord (c : WiFiConfigState) : Bool :=
  decide (c._networkName ≠ "") && decide (c._networkPass ≠ "") &&
  decide (c._mqttServerAddress ≠ "") && decide (c._mqttServerPort ≠ 0) &&
  decide (c._mqttUsername ≠ "") && decide (c._mqttPass ≠ "") &&
  decide (c._mqttClientId ≠ "") && decide (c._mqttTopic ≠ "")

/-- WiFiConfig.cpp line 337: `getPreferencesNamespace`. -/
def getPreferencesNamespace (c : WiFiConfigState) : String :=
  if c._preferencesNamespace = "" then "NULL" else c._preferencesNamespace

/-- WiFiConfig.cpp line 346: `getNetworkName`. -/
def getNetworkName (c : WiFiConfigState) : String :=
  if c._networkName = "" then "NULL" else c._networkName

/-- WiFiConfig.cpp line 355: `getNetworkPass`. -/
def getNetworkPass (c : WiFiConfigState) : String :=
  if c._networkPass = "" then "NULL" else c._networkPass

/-- WiFiConfig.cpp line 364: `getMqttServerAddress`. -/
def getMqttServerAddress (c : WiFiConfigState) : String :=
  if c._mqttServerAddress = "" then "NULL" else c._mqttServerAddress

/-- WiFiConfig.cpp line 373: `getMqttUsername`. -/
def getMqttUsername (c : WiFiConfigState) : String :=
  if c._mqttUsername = "" then "NULL" else c._mqttUsername

/-- WiFiConfig.cpp line 382: `getMqttPass`. -/
def getMqttPass (c : WiFiConfigState) : String :=
  if c._mqttPass = "" then "NULL" else c._mqttPass

/-- WiFiConfig.cpp line 391: `getMqttClientId`. -/
def getMqttClientId (c : WiFiConfigState) : String :=
  if c._mqttClientId = "" then "NULL" else c._mqttClientId

/-- WiFiConfig.cpp line 400: `getMqttTopic`. -/
def getMqttTopic (c : WiFiConfigState) : String :=
  if c._mqttTopic = "" then "NULL" else c._mqttTopic

/-- SMAF-Development-Kit.ino: the device status enumeration. -/
inductive DeviceStatusEnum
  | NONE
  | NOT_READY
  | READY_TO_SEND
  | WAITING_GNSS
  | MAINTENANCE_MODE
deriving DecidableEq

/-- The observable outcome of `setup()`: the device status it assigned,
whether `config.startConfig()` was invoked, and the `WiFiConfig` state. -/
structure SetupResult where
  deviceStatus : DeviceStatusEnum
  configServerStarted : Bool
  config : WiFiConfigState
deriving DecidableEq

/-- The eight persistent configuration keys. -/
def prefKeys : List String :=
  [NETWORK_NAME, NETWORK_PASS, MQTT_SERVER_ADDRESS, MQTT_SERVER_PORT,
   MQTT_USERNAME, MQTT_PASS, MQTT_CLIENT_ID, MQTT_TOPIC]

/-- SMAF-Development-Kit.ino lines 302-370: `setup()`, restricted to its
configuration-relevant behavior. The namespace is set to "SMAF-DK",
preferences are loaded, and the device enters MAINTENANCE_MODE (starting
the SoftAP configuration server) when the configuration button reads HIGH
or the loaded configuration is invalid, NOT_READY otherwise. -/
def setup (st : Store) (buttonHigh : Bool) : SetupResult :=
  let c0 : WiFiConfigState :=
    { _preferencesNamespace := ""
      _networkName := ""
      _networkPass := ""
      _mqttServerAddress := ""
      _mqttServerPort := 0
      _mqttUsername := ""
      _mqttPass := ""
      _mqttClientId := ""
      _mqttTopic := ""
      _isConfigValid := false }
  let c1 := { c0 with _preferencesNamespace := "SMAF-DK" }
  let c2 := loadPreferences c1 st
  if buttonHigh = true ∨ isConfigValid c2 = false then
    { deviceStatus := DeviceStatusEnum.MAINTENANCE_MODE
      configServerStarted := true
      config := c2 }
  else
    { deviceStatus := DeviceStatusEnum.NOT_READY
      configServerStarted := false
      config := c2 }

/-- Observable events of the connectivity sequencing in `loop()`
(SMAF-Development-Kit.ino lines 380-480): status-variable writes, Wi-Fi
association checks (`WiFi.status() == WL_CONNECTED`), association attempts
(`WiFi.begin`), broker-connection checks (`mqtt.connected()`), and broker
connection attempts (`mqtt.connect`, with their result). -/
inductive Ev
  | statusSet (s : DeviceStatusEnum)
  | wifiCheck (ok : Bool)
  | wifiBegin
  | mqttCheck (ok : Bool)
  | mqttConnect (ok : Bool)
deriving DecidableEq

/-- The retry loop of `connectToNetwork` (lines 425-434): re-check
association, and if absent attempt `WiFi.begin` and retry. `ws n` is the
result of the n-th association check; `fuel` bounds the unrolling (the
real loop retries forever, `none` means the bound was reached). -/
def netLoop (ws : Nat → Bool) : Nat → Nat → Option (List Ev × Nat)
  | 0, _ => none
  | fuel + 1, i =>
    if ws i then some ([Ev.wifiCheck true], i + 1)
    else
      match netLoop ws fuel (i + 1) with
      | none => none
      | some (tr, i2) => some (Ev.wifiCheck false :: Ev.wifiBegin :: tr, i2)

/-- SMAF-Development-Kit.ino lines 412-439: `connectToNetwork`. When the
initial check shows no association, the status is set to NOT_READY and the
retry loop runs until associated. -/
def connectToNetwork (ws : Nat → Bool) (fuel i : Nat) : Option (List Ev × Nat) :=
  if ws i then some ([Ev.wifiCheck true], i + 1)
  else
    match netLoop ws fuel (i + 1) with
    | none => none
    | some (tr, i2) => some (Ev.wifiCheck false :: Ev.statusSet DeviceStatusEnum.NOT_READY :: tr, i2)

/-- The retry loop of `connectToMqttBroker` (lines 467-478): re-check
`mqtt.connected()`; while unconnected attempt `mqtt.connect`, and on a
successful attempt set the status to READY_TO_SEND. `mc j` is the result
of the j-th connectedness check, `co k` of the k-th connect attempt. -/
def mqttLoop (mc co : Nat → Bool) : Nat → Nat → Nat → Option (List Ev × Nat × Nat)
  | 0, _, _ => none
  | fuel + 1, j, k =>
    if mc j then some ([Ev.mqttCheck true], j + 1, k)
    else
      if co k then
        match mqttLoop mc co fuel (j + 1) (k + 1) with
        | none => none
        | some (tr, j2, k2) =>
          some (Ev.mqttCheck false :: Ev.mqttConnect true ::
                Ev.statusSet DeviceStatusEnum.READY_TO_SEND :: tr, j2, k2)
      else
        match mqttLoop mc co fuel (j + 1) (k + 1) with
        | none => none
        | some (tr, j2, k2) =>
          some (Ev.mqttCheck false :: Ev.mqttConnect false :: tr, j2, k2)

/-- SMAF-Development-Kit.ino lines 453-480: `connectToMqttBroker`. When
the initial check shows no broker connection, the status is set to
NOT_READY and the retry loop runs until connected. -/
def connectToMqttBroker (mc co : Nat → Bool) (fuel j k : Nat) :
    Option (List Ev × Nat × Nat) :=
  if mc j then some ([Ev.mqttCheck true], j + 1, k)
  else
    match mqttLoop mc co fuel (j + 1) k with
    | none => none
    | some (tr, j2, k2) =>
      some (Ev.mqttCheck false :: Ev.statusSet DeviceStatusEnum.NOT_READY :: tr, j2, k2)

/-- SMAF-Development-Kit.ino lines 386-390: one non-maintenance iteration
of `loop()` runs `connectToNetwork` and then `connectToMqttBroker`; the
event trace of the iteration is their concatenation. -/
def loopIteration (ws mc co : Nat → Bool) (fuel i j k : Nat) :
    Option (List Ev × Nat × Nat × Nat) :=
  match connectToNetwork ws fuel i with
  | none => none
  | some (t1, i2) =>
    match connectToMqttBroker mc co fuel j k with
    | none => none
    | some (t2, j2, k2) => some (t1 ++ t2, i2, j2, k2)

/-- A fully populated sample configuration record. -/
def sampleConfig : WiFiConfigState :=
  { _preferencesNamespace := "SMAF-DK"
    _networkName := "homenet"
    _networkPass := "secret"
    _mqttServerAddress := "broker.local"
    _mqttServerPort := 1883
    _mqttUsername := "user"
    _mqttPass := "pass"
    _mqttClientId := "smaf"
    _mqttTopic := "smaf/data"
    _isConfigValid := false }

/- List helper lemmas. -/

theorem drop_len_append {α : Type} (l1 l2 : List α) : (l1 ++ l2).drop l1.length = l2 := by
  induction l1 with
  | nil => rfl
  | cons a t ih => simp [ih]

theorem take_len_append {α : Type} (l1 l2 : List α) : (l1 ++ l2).take l1.length = l1 := by
  induction l1 with
  | nil => rfl
  | cons a t ih => simp [ih]

theorem take_add_append {α : Type} (l1 l2 : List α) (k : Nat) :
    (l1 ++ l2).take (l1.length + k) = l1 ++ l2.take k := by
  induction l1 with
  | nil => simp
  | cons a t ih => simp [Nat.succ_add, ih]

theorem drop_append_le {α : Type} (l1 l2 : List α) (j : Nat) (h : j ≤ l1.length) :
    (l1 ++ l2).drop j = l1.drop j ++ l2 := by
  induction l1 generalizing j with
  | nil =>
    have : j = 0 := Nat.le_zero.mp h
    simp [this]
  | cons a t ih =>
    cases j with
    | zero => rfl
    | succ j2 => simpa using ih j2 (Nat.le_of_succ_le_succ h)

theorem mem_of_drop_eq_cons {α : Type} {l : List α} {j : Nat} {c : α} {t : List α}
    (h : l.drop j = c :: t) : c ∈ l := by
  induction l generalizing j with
  | nil => simp at h
  | cons a l2 ih =>
    cases j with
    | zero =>
      rw [List.drop_zero] at h
      rw [List.cons_eq_cons] at h
      exact h.1 ▸ List.mem_cons_self a l2
    | succ j2 => exact List.mem_cons_of_mem a (ih h)

theorem isPrefixOf_append_self (l r : List Char) : l.isPrefixOf (l ++ r) = true := by
  induction l with
  | nil => cases r <;> rfl
  | cons a t ih => simp [List.isPrefixOf, ih]

theorem cons_isPrefixOf {c : Char} {cs l : List Char} (h : (c :: cs).isPrefixOf l = true) :
    ∃ t, l = c :: t ∧ cs.isPrefixOf t = true := by
  cases l with
  | nil => simp [List.isPrefixOf] at h
  | cons a t =>
    simp only [List.isPrefixOf, Bool.and_eq_true, beq_iff_eq] at h
    exact ⟨t, by rw [h.1], h.2⟩

/- Lemmas about the indexOf scan. -/

theorem findSub_not_found (sub : List Char) (l : List Char) (i : Nat)
    (h : ∀ j, sub.isPrefixOf (l.drop j) = false) : findSub sub l i = -1 := by
  induction l generalizing i with
  | nil =>
    have h0 := h 0
    rw [List.drop_zero] at h0
    simp [findSub, h0]
  | cons a t ih =>
    have h0 := h 0
    rw [List.drop_zero] at h0
    have ht : ∀ j, sub.isPrefixOf (t.drop j) = false := fun j => h (j + 1)
    simp [findSub, h0, ih (i + 1) ht]

theorem findSub_found (sub : List Char) (k : Nat) :
    ∀ (l : List Char) (i : Nat),
      (∀ j, j < k → sub.isPrefixOf (l.drop j) = false) →
      sub.isPrefixOf (l.drop k) = true →
      findSub sub l i = ((i + k : Nat) : Int) := by
  induction k with
  | zero =>
    intro l i _ hm
    rw [List.drop_zero] at hm
    rw [findSub.eq_def]
    simp [hm]
  | succ k2 ih =>
    intro l i hlt hm
    have h0 := hlt 0 (Nat.succ_pos k2)
    rw [List.drop_zero] at h0
    cases l with
    | nil =>
      rw [List.drop_nil] at hm
      rw [h0] at hm
      exact absurd hm (by simp)
    | cons a t =>
      have step : findSub sub (a :: t) i = findSub sub t (i + 1) := by
        rw [findSub.eq_def]
        simp [h0]
      rw [step, ih t (i + 1) (fun j hj => hlt (j + 1) (Nat.succ_lt_succ hj)) hm]
      congr 1
      omega

/-- Claim C1 (code bug): on a body that does not contain the field id,
`parseFieldValue` does not return the empty string as its own
documentation promises: `extractField("a=b", "z")` evaluates to `"=b"`,
because the start index is computed from the -1 not-found sentinel. -/
theorem parseFieldValue_missing_field_eval :
    parseFieldValue (("a=b").toList) (("z").toList) = ("=b").toList := by decide

/-- Claim C2 (code bug): `removeSpaces` does not strip leading/trailing
spaces. `extractField("a=%20b%20 HTTP/1.1", "a")` decodes to `" b "` and
is returned with both spaces kept; `removeSpaces` leaves any string with
a non-space character unchanged. -/
theorem parseFieldValue_spaces_kept_eval :
    parseFieldValue (("a=%20b%20 HTTP/1.1").toList) (("a").toList) = (" b ").toList ∧
    removeSpaces ((" b ").toList) = (" b ").toList := by decide

/-- Claim C4: `decodeResponse` maps a `%XY` escape to the byte
`16*hex(X)+hex(Y)`, maps `+` to a space, copies every other byte
unchanged, an invalid hex digit contributes 0, and
`decodeResponse("a%20b+c") = "a b c"`. -/
theorem decodeResponse_spec :
    (∀ x y rest, decodeResponse ('%' :: x :: y :: rest) =
        Char.ofNat (hexToByte x * 16 + hexToByte y) :: decodeResponse rest) ∧
    (∀ rest, decodeResponse ('+' :: rest) = ' ' :: decodeResponse rest) ∧
    (∀ c rest, c ≠ '%' → c ≠ '+' → decodeResponse (c :: rest) = c :: decodeResponse rest) ∧
    (∀ c, ¬ ('0' ≤ c ∧ c ≤ '9') → ¬ ('a' ≤ c ∧ c ≤ 'f') → ¬ ('A' ≤ c ∧ c ≤ 'F') →
        hexToByte c = 0) ∧
    decodeResponse (("a%20b+c").toList) = ("a b c").toList := by
  refine ⟨?_, ?_, ?_, ?_, by decide⟩
  · intro x y rest
    rw [decodeResponse]
    simp
  · intro rest
    rw [decodeResponse.eq_def]
    simp
  · intro c rest h1 h2
    rw [decodeResponse.eq_def]
    simp [h1, h2]
  · intro c h1 h2 h3
    simp [hexToByte, h1, h2, h3]

/-- Witness for C4: the copy-unchanged case at `'x'` and the
invalid-hex-digit case at `'z'`. -/
theorem decodeResponse_spec_witness :
    decodeResponse (('x') :: []) = ('x') :: decodeResponse [] ∧ hexToByte ('z') = 0 := by
  constructor
  · exact decodeResponse_spec.2.2.1 ('x') [] (by decide) (by decide)
  · exact decodeResponse_spec.2.2.2.1 ('z') (by decide) (by decide) (by decide)

/- Facts about decimal digit characters. -/

theorem decimalDigit_facts (c : Char) (h : c ∈ decimalDigits) :
    Char.isDigit c = true ∧ isSpaceChar c = false ∧ c ≠ '-' ∧ c ≠ '+' := by
  fin_cases h <;> exact ⟨by decide, by decide, by decide, by decide⟩

theorem takeWhile_eq_self_of_all (p : Char → Bool) (l : List Char)
    (h : ∀ c ∈ l, p c = true) : l.takeWhile p = l := by
  induction l with
  | nil => rfl
  | cons a t ih =>
    have ha : p a = true := h a (List.mem_cons_self a t)
    simp [List.takeWhile_cons, ha, ih (fun c hc => h c (List.mem_cons_of_mem a hc))]

theorem atol_digits (ds : List Char) (hne : ds ≠ [])
    (hd : ∀ c ∈ ds, c ∈ decimalDigits) : atol ds = clampPos (digitsToNat ds) := by
  cases ds with
  | nil => exact absurd rfl hne
  | cons a t =>
    obtain ⟨had, has, ham, hap⟩ := decimalDigit_facts a (hd a (List.mem_cons_self a t))
    have hdw : (a :: t).dropWhile isSpaceChar = a :: t := by
      simp [List.dropWhile_cons, has]
    have htw : (a :: t).takeWhile Char.isDigit = a :: t :=
      takeWhile_eq_self_of_all _ _ (fun c hc => (decimalDigit_facts c (hd c hc)).1)
    unfold atol
    rw [hdw]
    simp only [ham, hap, if_false, htw]

/-- Claim C5: `stringToUint16` returns the numeric value of a decimal
string when that value is at most 65535, returns 0 when the value is out
of range or when parsing fails, and in particular maps "65535" to 65535,
"99999" to 0 and "abc" to 0. -/
theorem stringToUint16_spec :
    (∀ ds : List Char, ds ≠ [] → (∀ c ∈ ds, c ∈ decimalDigits) →
        digitsToNat ds ≤ 65535 → stringToUint16 ds = digitsToNat ds) ∧
    (∀ ds : List Char, ds ≠ [] → (∀ c ∈ ds, c ∈ decimalDigits) →
        65535 < digitsToNat ds → stringToUint16 ds = 0) ∧
    stringToUint16 (("65535").toList) = 65535 ∧
    stringToUint16 (("99999").toList) = 0 ∧
    stringToUint16 (("abc").toList) = 0 := by
  refine ⟨?_, ?_, by decide, by decide, by decide⟩
  · intro ds hne hd hle
    unfold stringToUint16
    rw [atol_digits ds hne hd]
    have hcl : clampPos (digitsToNat ds) = ((digitsToNat ds : Nat) : Int) := by
      unfold clampPos
      rw [if_neg (by omega)]
    rw [hcl, if_pos (by omega)]
    simp
  · intro ds hne hd hgt
    unfold stringToUint16
    rw [atol_digits ds hne hd]
    unfold clampPos
    by_cases hbig : 2147483647 < digitsToNat ds
    · rw [if_pos hbig, if_neg (by omega)]
    · rw [if_neg hbig, if_neg (by omega)]

/-- Witness for C5: both universally quantified parts instantiated at
concrete digit strings. -/
theorem stringToUint16_spec_witness :
    stringToUint16 (("7").toList) = digitsToNat (("7").toList) ∧
    stringToUint16 (("99999").toList) = 0 := by
  constructor
  · exact stringToUint16_spec.1 (("7").toList) (by decide) (by decide) (by decide)
  · exact stringToUint16_spec.2.1 (("99999").toList) (by decide) (by decide) (by decide)

/-- Claim C10: every string-valued getter returns the literal "NULL" when
its field is empty and the field value unchanged otherwise; consequently
an empty field and a stored literal "NULL" are indistinguishable through
these getters. -/
theorem getters_null_on_empty (c : WiFiConfigState) :
    ((c._preferencesNamespace = "" ∧ getPreferencesNamespace c = "NULL") ∨
     (c._preferencesNamespace ≠ "" ∧ getPreferencesNamespace c = c._preferencesNamespace)) ∧
    ((c._networkName = "" ∧ getNetworkName c = "NULL") ∨
     (c._networkName ≠ "" ∧ getNetworkName c = c._networkName)) ∧
    ((c._networkPass = "" ∧ getNetworkPass c = "NULL") ∨
     (c._networkPass ≠ "" ∧ getNetworkPass c = c._networkPass)) ∧
    ((c._mqttServerAddress = "" ∧ getMqttServerAddress c = "NULL") ∨
     (c._mqttServerAddress ≠ "" ∧ getMqttServerAddress c = c._mqttServerAddress)) ∧
    ((c._mqttUsername = "" ∧ getMqttUsername c = "NULL") ∨
     (c._mqttUsername ≠ "" ∧ getMqttUsername c = c._mqttUsername)) ∧
    ((c._mqttPass = "" ∧ getMqttPass c = "NULL") ∨
     (c._mqttPass ≠ "" ∧ getMqttPass c = c._mqttPass)) ∧
    ((c._mqttClientId = "" ∧ getMqttClientId c = "NULL") ∨
     (c._mqttClientId ≠ "" ∧ getMqttClientId c = c._mqttClientId)) ∧
    ((c._mqttTopic = "" ∧ getMqttTopic c = "NULL") ∨
     (c._mqttTopic ≠ "" ∧ getMqttTopic c = c._mqttTopic)) ∧
    getPreferencesNamespace { c with _preferencesNamespace := "" } =
      getPreferencesNamespace { c with _preferencesNamespace := "NULL" } ∧
    getNetworkName { c with _networkName := "" } =
      getNetworkName { c with _networkName := "NULL" } ∧
    getNetworkPass { c with _networkPass := "" } =
      getNetworkPass { c with _networkPass := "NULL" } ∧
    getMqttServerAddress { c with _mqttServerAddress := "" } =
      getMqttServerAddress { c with _mqttServerAddress := "NULL" } ∧
    getMqttUsername { c with _mqttUsername := "" } =
      getMqttUsername { c with _mqttUsername := "NULL" } ∧
    getMqttPass { c with _mqttPass := "" } =
      getMqttPass { c with _mqttPass := "NULL" } ∧
    getMqttClientId { c with _mqttClientId := "" } =
      getMqttClientId { c with _mqttClientId := "NULL" } ∧
    getMqttTopic { c with _mqttTopic := "" } =
      getMqttTopic { c with _mqttTopic := "NULL" } := by
  refine ⟨?_, ?_, ?_, ?_, ?_, ?_, ?_, ?_, ?_, ?_, ?_, ?_, ?_, ?_, ?_, ?_⟩
  · by_cases h : c._preferencesNamespace = ""
    · exact Or.inl ⟨h, by simp [getPreferencesNamespace, h]⟩
    · exact Or.inr ⟨h, by simp [getPreferencesNamespace, h]⟩
  · by_cases h : c._networkName = ""
    · exact Or.inl ⟨h, by simp [getNetworkName, h]⟩
    · exact Or.inr ⟨h, by simp [getNetworkName, h]⟩
  · by_cases h : c._networkPass = ""
    · exact Or.inl ⟨h, by simp [getNetworkPass, h]⟩
    · exact Or.inr ⟨h, by simp [getNetworkPass, h]⟩
  · by_cases h : c._mqttServerAddress = ""
    · exact Or.inl ⟨h, by simp [getMqttServerAddress, h]⟩
    · exact Or.inr ⟨h, by simp [getMqttServerAddress, h]⟩
  · by_cases h : c._mqttUsername = ""
    · exact Or.inl ⟨h, by simp [getMqttUsername, h]⟩
    · exact Or.inr ⟨h, by simp [getMqttUsername, h]⟩
  · by_cases h : c._mqttPass = ""
    · exact Or.inl ⟨h, by simp [getMqttPass, h]⟩
    · exact Or.inr ⟨h, by simp [getMqttPass, h]⟩
  · by_cases h : c._mqttClientId = ""
    · exact Or.inl ⟨h, by simp [getMqttClientId, h]⟩
    · exact Or.inr ⟨h, by simp [getMqttClientId, h]⟩
  · by_cases h : c._mqttTopic = ""
    · exact Or.inl ⟨h, by simp [getMqttTopic, h]⟩
    · exact Or.inr ⟨h, by simp [getMqttTopic, h]⟩
  · simp [getPreferencesNamespace]
  · simp [getNetworkName]
  · simp [getNetworkPass]
  · simp [getMqttServerAddress]
  · simp [getMqttUsername]
  · simp [getMqttPass]
  · simp [getMqttClientId]
  · simp [getMqttTopic]

/-- Claim C7: after any `loadPreferences`, `isConfigValid` holds exactly
when all eight loaded fields are non-empty and the port is nonzero; the
flag is recomputed from the store on every load independently of its
previous value; `savePreferences` returns the object unchanged, so it
never recomputes the flag. -/
theorem loadPreferences_isConfigValid_iff (c : WiFiConfigState) (st : Store) :
    (isConfigValid (loadPreferences c st) = true ↔
      ((loadPreferences c st)._networkName ≠ "" ∧
       (loadPreferences c st)._networkPass ≠ "" ∧
       (loadPreferences c st)._mqttServerAddress ≠ "" ∧
       (loadPreferences c st)._mqttServerPort ≠ 0 ∧
       (loadPreferences c st)._mqttUsername ≠ "" ∧
       (loadPreferences c st)._mqttPass ≠ "" ∧
       (loadPreferences c st)._mqttClientId ≠ "" ∧
       (loadPreferences c st)._mqttTopic ≠ "")) ∧
    (∀ b : Bool, loadPreferences { c with _isConfigValid := b } st = loadPreferences c st) ∧
    (∀ b : Bool, (savePreferences { c with _isConfigValid := b } st).1._isConfigValid = b) := by
  refine ⟨?_, fun b => rfl, fun b => rfl⟩
  simp only [isConfigValid, loadPreferences]
  split
  · rename_i hcond
    constructor
    · intro hfalse
      exact absurd hfalse (by simp)
    · intro hq
      obtain ⟨q1, q2, q3, q4, q5, q6, q7, q8⟩ := hq
      rcases hcond with h | h | h | h | h | h | h | h
      · exact absurd h q1
      · exact absurd h q2
      · exact absurd h q3
      · exact absurd h q4
      · exact absurd h q5
      · exact absurd h q6
      · exact absurd h q7
      · exact absurd h q8
  · rename_i hcond
    push_neg at hcond
    simp only [true_iff]
    exact hcond

/-- Claim C8: on a store holding none of the eight configuration keys
under the "SMAF-DK" namespace, and with the configuration button reading
low, `setup` still sets the status to MAINTENANCE_MODE and starts the
configuration server, because the loaded configuration is invalid. -/
theorem setup_fresh_store (st : Store)
    (hfresh : ∀ k ∈ prefKeys, prefLookup st ("SMAF-DK") k = none) :
    (setup st false).deviceStatus = DeviceStatusEnum.MAINTENANCE_MODE ∧
    (setup st false).configServerStarted = true := by
  have h1 : prefGetString st ("SMAF-DK") NETWORK_NAME ("") = "" := by
    have := hfresh NETWORK_NAME (by simp [prefKeys])
    simp [prefGetString, this]
  unfold setup
  simp [loadPreferences, isConfigValid, h1]

/-- Witness for C8: the empty store. -/
theorem setup_fresh_store_witness :
    (setup ([]) false).deviceStatus = DeviceStatusEnum.MAINTENANCE_MODE ∧
    (setup ([]) false).configServerStarted = true :=
  setup_fresh_store ([]) (by intro k hk; rfl)

/- Lookup/update lemmas for the preferences store. -/

theorem prefLookup_put_self (st : Store) (ns k : String) (v : PrefVal) :
    prefLookup (prefPut st ns k v) ns k = some v := by
  induction st with
  | nil => simp [prefPut, prefLookup]
  | cons e t ih =>
    obtain ⟨⟨n, k0⟩, w⟩ := e
    by_cases h : n = ns ∧ k0 = k
    · simp [prefPut, prefLookup, h]
    · simp [prefPut, prefLookup, h, ih]

theorem prefLookup_put_other (st : Store) (ns k ns2 k2 : String) (v : PrefVal)
    (h : ¬ (ns2 = ns ∧ k2 = k)) :
    prefLookup (prefPut st ns2 k2 v) ns k = prefLookup st ns k := by
  induction st with
  | nil => simp [prefPut, prefLookup, h]
  | cons e t ih =>
    obtain ⟨⟨n, k0⟩, w⟩ := e
    by_cases h2 : n = ns2 ∧ k0 = k2
    · simp [prefPut, prefLookup, h2.1, h2.2, h]
    · by_cases h3 : n = ns ∧ k0 = k
      · have h5 : ¬ (ns = ns2 ∧ k = k2) := fun hx => h ⟨hx.1.symm, hx.2.symm⟩
        simp [prefPut, prefLookup, h3.1, h3.2, h5]
      · simp [prefPut, prefLookup, h2, h3, ih]

/-- Get-after-put lemmas at the level of the typed accessors. -/

theorem prefGetString_put_self (st : Store) (ns k s dflt : String) :
    prefGetString (prefPut st ns k (PrefVal.vstr s)) ns k dflt = s := by
  simp [prefGetString, prefLookup_put_self]

theorem prefGetUShort_put_self (st : Store) (ns k : String) (n dflt : Nat) :
    prefGetUShort (prefPut st ns k (PrefVal.vushort n)) ns k dflt = n := by
  simp [prefGetUShort, prefLookup_put_self]

theorem prefGetString_put_other (st : Store) (ns k k2 : String) (v : PrefVal)
    (dflt : String) (h : k2 ≠ k) :
    prefGetString (prefPut st ns k2 v) ns k dflt = prefGetString st ns k dflt := by
  simp [prefGetString, prefLookup_put_other st ns k ns k2 v (fun hx => h hx.2)]

theorem prefGetUShort_put_other (st : Store) (ns k k2 : String) (v : PrefVal)
    (dflt : Nat) (h : k2 ≠ k) :
    prefGetUShort (prefPut st ns k2 v) ns k dflt = prefGetUShort st ns k dflt := by
  simp [prefGetUShort, prefLookup_put_other st ns k ns k2 v (fun hx => h hx.2)]

/-- Claim C6: saving a fully populated record (port in [1, 65535]) and
loading it back from the same namespace yields exactly the record, with
the validity flag equal to `isValidRecord` of the record, which is true. -/
theorem savePreferences_loadPreferences_roundTrip (st : Store) (c : WiFiConfigState)
    (h1 : c._networkName ≠ "") (h2 : c._networkPass ≠ "")
    (h3 : c._mqttServerAddress ≠ "") (h4 : c._mqttUsername ≠ "")
    (h5 : c._mqttPass ≠ "") (h6 : c._mqttClientId ≠ "") (h7 : c._mqttTopic ≠ "")
    (h8 : 1 ≤ c._mqttServerPort) (h9 : c._mqttServerPort ≤ 65535) :
    loadPreferences c (savePreferences c st).2 = { c with _isConfigValid := isValidRecord c } ∧
    isValidRecord c = true := by
  have hp : c._mqttServerPort ≠ 0 := by omega
  have hv : isValidRecord c = true := by
    simp [isValidRecord, h1, h2, h3, hp, h4, h5, h6, h7]
  refine ⟨?_, hv⟩
  rw [hv]
  have hmod : c._mqttServerPort % 65536 = c._mqttServerPort := Nat.mod_eq_of_lt (by omega)
  unfold loadPreferences savePreferences
  simp only [prefPutString, prefPutUShort]
  simp [prefGetString_put_self, prefGetUShort_put_self,
        prefGetString_put_other, prefGetUShort_put_other,
        NETWORK_NAME, NETWORK_PASS, MQTT_SERVER_ADDRESS, MQTT_SERVER_PORT,
        MQTT_USERNAME, MQTT_PASS, MQTT_CLIENT_ID, MQTT_TOPIC,
        hmod, h1, h2, h3, h4, h5, h6, h7, hp]

/-- Witness for C6: a concrete fully populated record on the empty store. -/
theorem savePreferences_loadPreferences_roundTrip_witness :
    loadPreferences sampleConfig (savePreferences sampleConfig ([])).2 =
      { sampleConfig with _isConfigValid := isValidRecord sampleConfig } ∧
    isValidRecord sampleConfig = true :=
  savePreferences_loadPreferences_roundTrip ([]) sampleConfig
    (by decide) (by decide) (by decide) (by decide) (by decide) (by decide) (by decide)
    (by decide) (by decide)

/- Occurrence lemmas for the indexOf model. -/

theorem prefixFalse_of_not_mem (c : Char) (cs l : List Char) (h : c ∉ l) (j : Nat) :
    ((c :: cs).isPrefixOf (l.drop j)) = false := by
  cases hb : (c :: cs).isPrefixOf (l.drop j) with
  | false => rfl
  | true =>
    obtain ⟨t, ht, _⟩ := cons_isPrefixOf hb
    exact (h (mem_of_drop_eq_cons ht)).elim

theorem prefixFalse_of_early_pos (c : Char) (cs v s : List Char) (h : c ∉ v) (j : Nat)
    (hj : j < v.length) : ((c :: cs).isPrefixOf ((v ++ s).drop j)) = false := by
  cases hb : (c :: cs).isPrefixOf ((v ++ s).drop j) with
  | false => rfl
  | true =>
    exfalso
    obtain ⟨t, ht, _⟩ := cons_isPrefixOf hb
    rw [drop_append_le v s j (Nat.le_of_lt hj)] at ht
    cases hv : v.drop j with
    | nil =>
      have hlen := congrArg List.length hv
      simp at hlen
      omega
    | cons a u =>
      rw [hv, List.cons_append] at ht
      have ha : a = c := (List.cons_eq_cons.mp ht).1
      exact h (ha ▸ mem_of_drop_eq_cons hv)

theorem strIndexOfFrom_none (data sub : List Char) (i0 : Nat)
    (h : ∀ j, sub.isPrefixOf ((data.drop i0).drop j) = false) :
    strIndexOfFrom data sub i0 = -1 := by
  unfold strIndexOfFrom
  split
  · rfl
  · exact findSub_not_found sub (data.drop i0) i0 h

theorem strIndexOfFrom_found (data sub : List Char) (i0 k : Nat)
    (hfrom : i0 < data.length)
    (hnone : ∀ j, j < k → sub.isPrefixOf ((data.drop i0).drop j) = false)
    (hm : sub.isPrefixOf ((data.drop i0).drop k) = true) :
    strIndexOfFrom data sub i0 = ((i0 + k : Nat) : Int) := by
  unfold strIndexOfFrom
  rw [if_neg (by omega)]
  exact findSub_found sub k (data.drop i0) i0 hnone hm

theorem strIndexOf_first (p fid rest : List Char) (hne : 0 < (p ++ (fid ++ rest)).length)
    (hfirst : ∀ j, j < p.length → fid.isPrefixOf ((p ++ (fid ++ rest)).drop j) = false) :
    strIndexOf (p ++ (fid ++ rest)) fid = (p.length : Int) := by
  unfold strIndexOf strIndexOfFrom
  rw [if_neg (by omega), List.drop_zero]
  have hm : fid.isPrefixOf ((p ++ (fid ++ rest)).drop p.length) = true := by
    rw [drop_len_append]
    exact isPrefixOf_append_self fid rest
  have hfs := findSub_found fid p.length (p ++ (fid ++ rest)) 0 (fun j hj => hfirst j hj) hm
  rw [hfs]
  simp

/- Slice lemmas for the substring model. -/

theorem substringCpp_slice (data : List Char) (a b : Nat) (hab : a ≤ b)
    (hb : b ≤ data.length) (hlen : data.length < 4294967296) :
    substringCpp data ((a : Nat) : Int) ((b : Nat) : Int) = (data.take b).drop a := by
  simp only [substringCpp, uint32Of]
  have ha2 : (((a : Nat) : Int) % 4294967296).toNat = a := by omega
  have hb2 : (((b : Nat) : Int) % 4294967296).toNat = b := by omega
  rw [ha2, hb2, min_eq_left hab, max_eq_right hab, min_eq_left hb]
  by_cases hc : data.length ≤ a
  · rw [if_pos hc]
    symm
    apply List.drop_eq_nil_of_le
    rw [List.length_take]
    omega
  · rw [if_neg hc]

theorem substringCpp_to_end (data : List Char) (a : Nat)
    (hlen : data.length < 4294967296) (ha : a ≤ 4294967295) :
    substringCpp data ((a : Nat) : Int) (-1) = data.drop a := by
  simp only [substringCpp, uint32Of]
  have ha2 : (((a : Nat) : Int) % 4294967296).toNat = a := by omega
  have hneg : (((-1) : Int) % 4294967296).toNat = 4294967295 := by decide
  rw [ha2, hneg, min_eq_left ha, max_eq_right ha, min_eq_right (by omega), List.take_length]
  by_cases hc : data.length ≤ a
  · rw [if_pos hc]
    symm
    exact List.drop_eq_nil_of_le hc
  · rw [if_neg hc]

/-- Claim C3 (amended): on a body of the form
`prefix ++ fieldId ++ "=" ++ v ++ suffix` in which the FIRST occurrence of
the field id is the one immediately followed by `=`, whose value span `v`
contains no `&` and no space, and whose suffix is empty, starts with `&`,
or starts with the literal `" HTTP"` (and then contains no `&`),
`parseFieldValue` returns the decoded value span (an all-space decode
collapsing to empty), regardless of the field's position in the body. -/
theorem parseFieldValue_span (p fieldId v s : List Char)
    (hfirst : ∀ j, j < p.length →
      fieldId.isPrefixOf ((p ++ (fieldId ++ ('=' :: (v ++ s)))).drop j) = false)
    (hamp : '&' ∉ v) (hsp : ' ' ∉ v)
    (hlen : (p ++ (fieldId ++ ('=' :: (v ++ s)))).length < 2147483648)
    (hs : s = [] ∨ (∃ t, s = '&' :: t) ∨
      ((∃ u, s = ' ' :: 'H' :: 'T' :: 'T' :: 'P' :: u) ∧ '&' ∉ s)) :
    parseFieldValue (p ++ (fieldId ++ ('=' :: (v ++ s)))) fieldId =
      removeSpaces (decodeResponse v) := by
  set data := p ++ (fieldId ++ ('=' :: (v ++ s))) with hdata
  set N := p.length + fieldId.length + 1 with hN
  have hdlen : data.length = N + v.length + s.length := by
    rw [hdata]
    simp
    omega
  have hP0 : data = (p ++ (fieldId ++ ['='])) ++ (v ++ s) := by
    rw [hdata]
    simp
  have hP0len : (p ++ (fieldId ++ ['='])).length = N := by
    simp
    omega
  have hdropN : data.drop N = v ++ s := by
    rw [hP0, ← hP0len, drop_len_append]
  have hidx : strIndexOf data fieldId = (p.length : Int) := by
    rw [hdata] at hfirst ⊢
    exact strIndexOf_first p fieldId ('=' :: (v ++ s)) (by simp) hfirst
  simp only [parseFieldValue]
  rw [hidx]
  have hNint : (p.length : Int) + (fieldId.length : Int) + 1 = ((N : Nat) : Int) := by
    rw [hN]
    push_cast
    ring
  rw [hNint]
  have hu32 : uint32Of ((N : Nat) : Int) = N := by
    simp only [uint32Of]
    omega
  rw [hu32]
  have hslice : (data.take (N + v.length)).drop N = v := by
    rw [hP0, ← hP0len, take_add_append, drop_len_append, take_len_append]
  rcases hs with hsnil | ⟨t, hst⟩ | ⟨⟨u, hsu⟩, hsamp⟩
  · subst hsnil
    have hampx : strIndexOfFrom data ['&'] N = -1 := by
      apply strIndexOfFrom_none
      intro j
      rw [hdropN, List.append_nil]
      exact prefixFalse_of_not_mem '&' [] v hamp j
    have hhttpx : strIndexOfFrom data [' ', 'H', 'T', 'T', 'P'] N = -1 := by
      apply strIndexOfFrom_none
      intro j
      rw [hdropN, List.append_nil]
      exact prefixFalse_of_not_mem ' ' (['H', 'T', 'T', 'P']) v hsp j
    have hslen0 : data.length = N + v.length := by
      rw [hdlen]
      simp
    rw [hampx, hhttpx]
    have hsel : (if (-1 : Int) ≠ -1 then (-1 : Int) else (-1 : Int)) = (-1 : Int) := by simp
    rw [hsel]
    have hmin : min (-1 : Int) ((data.length : Int)) = (-1 : Int) :=
      min_eq_left (by omega)
    rw [hmin]
    rw [substringCpp_to_end data N (by omega) (by omega)]
    rw [hdropN, List.append_nil]
    by_cases hv : v = []
    · rw [if_pos hv, hv]
      rfl
    · rw [if_neg hv]
  · subst hst
    have hslen : data.length = N + v.length + (t.length + 1) := by
      rw [hdlen]
      simp
    have hlt : N < data.length := by omega
    have hampx : strIndexOfFrom data ['&'] N = ((N + v.length : Nat) : Int) := by
      apply strIndexOfFrom_found data ['&'] N v.length hlt
      · intro j hj
        rw [hdropN]
        exact prefixFalse_of_early_pos '&' [] v ('&' :: t) hamp j hj
      · rw [hdropN, drop_len_append]
        simp [List.isPrefixOf]
    rw [hampx]
    have hsel : (if ((N + v.length : Nat) : Int) ≠ -1
        then ((N + v.length : Nat) : Int)
        else strIndexOfFrom data [' ', 'H', 'T', 'T', 'P'] N) =
        ((N + v.length : Nat) : Int) := by
      rw [if_pos (by omega)]
    rw [hsel]
    have hmin : min (((N + v.length : Nat)) : Int) ((data.length : Int)) =
        (((N + v.length : Nat)) : Int) :=
      min_eq_left (by omega)
    rw [hmin]
    rw [substringCpp_slice data N (N + v.length) (by omega) (by omega) (by omega)]
    rw [hslice]
    by_cases hv : v = []
    · rw [if_pos hv, hv]
      rfl
    · rw [if_neg hv]
  · subst hsu
    have hslen : data.length = N + v.length + (u.length + 5) := by
      rw [hdlen]
      simp
    have hlt : N < data.length := by omega
    have hampmem : '&' ∉ v ++ (' ' :: 'H' :: 'T' :: 'T' :: 'P' :: u) := by
      simp only [List.mem_append]
      rintro (hc | hc)
      · exact hamp hc
      · exact hsamp hc
    have hampx : strIndexOfFrom data ['&'] N = -1 := by
      apply strIndexOfFrom_none
      intro j
      rw [hdropN]
      exact prefixFalse_of_not_mem '&' [] _ hampmem j
    have hhttpx : strIndexOfFrom data [' ', 'H', 'T', 'T', 'P'] N =
        ((N + v.length : Nat) : Int) := by
      apply strIndexOfFrom_found data _ N v.length hlt
      · intro j hj
        rw [hdropN]
        exact prefixFalse_of_early_pos ' ' (['H', 'T', 'T', 'P']) v _ hsp j hj
      · rw [hdropN, drop_len_append]
        simp [List.isPrefixOf]
    rw [hampx, hhttpx]
    have hsel : (if (-1 : Int) ≠ -1 then (-1 : Int)
        else ((N + v.length : Nat) : Int)) = ((N + v.length : Nat) : Int) := by simp
    rw [hsel]
    have hmin : min (((N + v.length : Nat)) : Int) ((data.length : Int)) =
        (((N + v.length : Nat)) : Int) :=
      min_eq_left (by omega)
    rw [hmin]
    rw [substringCpp_slice data N (N + v.length) (by omega) (by omega) (by omega)]
    rw [hslice]
    by_cases hv : v = []
    · rw [if_pos hv, hv]
      rfl
    · rw [if_neg hv]

/-- Counterexample for C3 as stated: in the body "a=c&c=d HTTP/1.1" the
field id "c" occurs followed by '=' (as the second key), but its first
occurrence is inside the value of "a", so `parseFieldValue` returns
"c=d" instead of the claimed span value "d". -/
theorem parseFieldValue_first_occurrence_cex :
    parseFieldValue (("a=c&c=d HTTP/1.1").toList) (("c").toList) = ("c=d").toList ∧
    parseFieldValue (("a=c&c=d HTTP/1.1").toList) (("c").toList) ≠ ("d").toList := by
  decide

/-- Witness for C3 (amended): extracting "c" from "a=b&c=d HTTP/1.1". -/
theorem parseFieldValue_span_witness :
    parseFieldValue
      ((("a=b&").toList) ++ ((("c").toList) ++
        ('=' :: ((("d").toList) ++ ((" HTTP/1.1").toList)))))
      (("c").toList) =
      removeSpaces (decodeResponse (("d").toList)) :=
  parseFieldValue_span (("a=b&").toList) (("c").toList) (("d").toList)
    ((" HTTP/1.1").toList)
    (by decide) (by decide) (by decide) (by decide)
    (Or.inr (Or.inr ⟨⟨(("/1.1").toList), by decide⟩, by decide⟩))

/- Trace lemmas for the connectivity sequencing. -/

theorem append_split_of_not_mem {α : Type} {x : α} {l1 l2 pre post : List α}
    (h : l1 ++ l2 = pre ++ x :: post) (hx : x ∉ l1) :
    ∃ pre2, l2 = pre2 ++ x :: post ∧ pre = l1 ++ pre2 := by
  induction l1 generalizing pre with
  | nil => exact ⟨pre, h, rfl⟩
  | cons a t ih =>
    cases pre with
    | nil =>
      rw [List.nil_append] at h
      obtain ⟨hax, -⟩ := List.cons_eq_cons.mp h
      subst hax
      exact absurd (List.mem_cons_self a t) hx
    | cons b pre2 =>
      rw [List.cons_append, List.cons_append] at h
      obtain ⟨hab, hrest⟩ := List.cons_eq_cons.mp h
      have hx2 : x ∉ t := fun hm => hx (List.mem_cons_of_mem a hm)
      obtain ⟨pre3, hs1, hs2⟩ := ih hrest hx2
      subst hab
      exact ⟨pre3, hs1, by rw [hs2, List.cons_append]⟩

theorem readyGuarded_nil :
    ∀ pre post : List Ev,
      ([] : List Ev) = pre ++ Ev.statusSet DeviceStatusEnum.READY_TO_SEND :: post →
      Ev.mqttConnect true ∈ pre := by
  intro pre post h
  exact absurd h (by simp)

theorem readyGuarded_cons (c : Ev) (tr : List Ev)
    (hc : c ≠ Ev.statusSet DeviceStatusEnum.READY_TO_SEND)
    (h : ∀ pre post, tr = pre ++ Ev.statusSet DeviceStatusEnum.READY_TO_SEND :: post →
      Ev.mqttConnect true ∈ pre) :
    ∀ pre post, c :: tr = pre ++ Ev.statusSet DeviceStatusEnum.READY_TO_SEND :: post →
      Ev.mqttConnect true ∈ pre := by
  intro pre post heq
  cases pre with
  | nil =>
    rw [List.nil_append] at heq
    exact absurd (List.cons_eq_cons.mp heq).1 hc
  | cons d pre2 =>
    rw [List.cons_append] at heq
    obtain ⟨hd, htr⟩ := List.cons_eq_cons.mp heq
    exact List.mem_cons_of_mem d (h pre2 post htr)

theorem readyGuarded_connect (tr : List Ev) :
    ∀ pre post, Ev.mqttConnect true :: tr =
        pre ++ Ev.statusSet DeviceStatusEnum.READY_TO_SEND :: post →
      Ev.mqttConnect true ∈ pre := by
  intro pre post heq
  cases pre with
  | nil =>
    rw [List.nil_append] at heq
    exact absurd (List.cons_eq_cons.mp heq).1 (by decide)
  | cons d pre2 =>
    rw [List.cons_append] at heq
    obtain ⟨hd, -⟩ := List.cons_eq_cons.mp heq
    rw [← hd]
    exact List.mem_cons_self _ _

theorem mqttLoop_ready_guarded (mc co : Nat → Bool) :
    ∀ (fuel j k : Nat) (tr : List Ev) (j2 k2 : Nat),
      mqttLoop mc co fuel j k = some (tr, j2, k2) →
      ∀ pre post, tr = pre ++ Ev.statusSet DeviceStatusEnum.READY_TO_SEND :: post →
        Ev.mqttConnect true ∈ pre := by
  intro fuel
  induction fuel with
  | zero =>
    intro j k tr j2 k2 h
    simp [mqttLoop] at h
  | succ f ih =>
    intro j k tr j2 k2 h
    simp only [mqttLoop] at h
    by_cases hmc : mc j = true
    · rw [if_pos hmc] at h
      simp at h
      obtain ⟨htr, -, -⟩ := h
      rw [← htr]
      exact readyGuarded_cons _ _ (by decide) readyGuarded_nil
    · rw [if_neg hmc] at h
      by_cases hco : co k = true
      · rw [if_pos hco] at h
        cases hrec : mqttLoop mc co f (j + 1) (k + 1) with
        | none =>
          rw [hrec] at h
          simp at h
        | some val =>
          obtain ⟨tr2, j3, k3⟩ := val
          rw [hrec] at h
          simp at h
          obtain ⟨htr, -, -⟩ := h
          rw [← htr]
          exact readyGuarded_cons _ _ (by decide) (readyGuarded_connect _)
      · rw [if_neg hco] at h
        cases hrec : mqttLoop mc co f (j + 1) (k + 1) with
        | none =>
          rw [hrec] at h
          simp at h
        | some val =>
          obtain ⟨tr2, j3, k3⟩ := val
          rw [hrec] at h
          simp at h
          obtain ⟨htr, -, -⟩ := h
          rw [← htr]
          exact readyGuarded_cons _ _ (by decide)
            (readyGuarded_cons _ _ (by decide) (ih (j + 1) (k + 1) tr2 j3 k3 hrec))

theorem connectToMqttBroker_ready_guarded (mc co : Nat → Bool) (fuel j k : Nat)
    (tr : List Ev) (j2 k2 : Nat)
    (h : connectToMqttBroker mc co fuel j k = some (tr, j2, k2)) :
    ∀ pre post, tr = pre ++ Ev.statusSet DeviceStatusEnum.READY_TO_SEND :: post →
      Ev.mqttConnect true ∈ pre := by
  unfold connectToMqttBroker at h
  by_cases hmc : mc j = true
  · rw [if_pos hmc] at h
    simp at h
    obtain ⟨htr, -, -⟩ := h
    rw [← htr]
    exact readyGuarded_cons _ _ (by decide) readyGuarded_nil
  · rw [if_neg hmc] at h
    cases hrec : mqttLoop mc co fuel (j + 1) k with
    | none =>
      rw [hrec] at h
      simp at h
    | some val =>
      obtain ⟨tr2, j3, k3⟩ := val
      rw [hrec] at h
      simp at h
      obtain ⟨htr, -, -⟩ := h
      rw [← htr]
      exact readyGuarded_cons _ _ (by decide)
        (readyGuarded_cons _ _ (by decide)
          (mqttLoop_ready_guarded mc co fuel (j + 1) k tr2 j3 k3 hrec))

theorem netLoop_events (ws : Nat → Bool) :
    ∀ (fuel i : Nat) (tr : List Ev) (i2 : Nat), netLoop ws fuel i = some (tr, i2) →
      (∀ e ∈ tr, e = Ev.wifiCheck true ∨ e = Ev.wifiCheck false ∨ e = Ev.wifiBegin) ∧
      Ev.wifiCheck true ∈ tr := by
  intro fuel
  induction fuel with
  | zero =>
    intro i tr i2 h
    simp [netLoop] at h
  | succ f ih =>
    intro i tr i2 h
    simp only [netLoop] at h
    by_cases hws : ws i = true
    · rw [if_pos hws] at h
      simp at h
      obtain ⟨htr, -⟩ := h
      rw [← htr]
      exact ⟨by simp, by simp⟩
    · rw [if_neg hws] at h
      cases hrec : netLoop ws f (i + 1) with
      | none =>
        rw [hrec] at h
        simp at h
      | some val =>
        obtain ⟨tr2, i3⟩ := val
        rw [hrec] at h
        simp at h
        obtain ⟨htr, -⟩ := h
        obtain ⟨hev, hmem⟩ := ih (i + 1) tr2 i3 hrec
        rw [← htr]
        constructor
        · intro e he
          rcases List.mem_cons.mp he with he | he
          · exact Or.inr (Or.inl he)
          · rcases List.mem_cons.mp he with he | he
            · exact Or.inr (Or.inr he)
            · exact hev e he
        · exact List.mem_cons_of_mem _ (List.mem_cons_of_mem _ hmem)

theorem connectToNetwork_events (ws : Nat → Bool) (fuel i : Nat) (tr : List Ev) (i2 : Nat)
    (h : connectToNetwork ws fuel i = some (tr, i2)) :
    (∀ e ∈ tr, e = Ev.wifiCheck true ∨ e = Ev.wifiCheck false ∨ e = Ev.wifiBegin ∨
      e = Ev.statusSet DeviceStatusEnum.NOT_READY) ∧
    Ev.wifiCheck true ∈ tr := by
  unfold connectToNetwork at h
  by_cases hws : ws i = true
  · rw [if_pos hws] at h
    simp at h
    obtain ⟨htr, -⟩ := h
    rw [← htr]
    exact ⟨by simp, by simp⟩
  · rw [if_neg hws] at h
    cases hrec : netLoop ws fuel (i + 1) with
    | none =>
      rw [hrec] at h
      simp at h
    | some val =>
      obtain ⟨tr2, i3⟩ := val
      rw [hrec] at h
      simp at h
      obtain ⟨htr, -⟩ := h
      obtain ⟨hev, hmem⟩ := netLoop_events ws fuel (i + 1) tr2 i3 hrec
      rw [← htr]
      constructor
      · intro e he
        rcases List.mem_cons.mp he with he | he
        · exact Or.inr (Or.inl he)
        · rcases List.mem_cons.mp he with he | he
          · exact Or.inr (Or.inr (Or.inr he))
          · rcases hev e he with h1 | h1 | h1
            · exact Or.inl h1
            · exact Or.inr (Or.inl h1)
            · exact Or.inr (Or.inr (Or.inl h1))
      · exact List.mem_cons_of_mem _ (List.mem_cons_of_mem _ hmem)

/-- Claim C9: in every terminating execution of one main-loop iteration of
the connectivity sequencing (`connectToNetwork` then `connectToMqttBroker`,
over arbitrary environment oracles), the status is set to READY_TO_SEND
only after a successful association check and a successful broker connect
attempt have already occurred, and every broker connect attempt occurs
only after a successful association check. -/
theorem connectivity_sequencing_order (ws mc co : Nat → Bool) (fuel i j k : Nat)
    (tr : List Ev) (i2 j2 k2 : Nat)
    (h : loopIteration ws mc co fuel i j k = some (tr, i2, j2, k2)) :
    (∀ pre post, tr = pre ++ Ev.statusSet DeviceStatusEnum.READY_TO_SEND :: post →
        Ev.wifiCheck true ∈ pre ∧ Ev.mqttConnect true ∈ pre) ∧
    (∀ pre b post, tr = pre ++ Ev.mqttConnect b :: post → Ev.wifiCheck true ∈ pre) := by
  unfold loopIteration at h
  cases hnet : connectToNetwork ws fuel i with
  | none =>
    rw [hnet] at h
    simp at h
  | some val =>
    obtain ⟨t1, i3⟩ := val
    rw [hnet] at h
    cases hmq : connectToMqttBroker mc co fuel j k with
    | none =>
      rw [hmq] at h
      simp at h
    | some val2 =>
      obtain ⟨t2, j3, k3⟩ := val2
      rw [hmq] at h
      simp at h
      obtain ⟨htr, -, -, -⟩ := h
      obtain ⟨hev1, hwt1⟩ := connectToNetwork_events ws fuel i t1 i3 hnet
      have hguard := connectToMqttBroker_ready_guarded mc co fuel j k t2 j3 k3 hmq
      have hnoready : Ev.statusSet DeviceStatusEnum.READY_TO_SEND ∉ t1 := by
        intro hm
        rcases hev1 _ hm with h1 | h1 | h1 | h1 <;> simp at h1
      have hnomqtt : ∀ b, Ev.mqttConnect b ∉ t1 := by
        intro b hm
        rcases hev1 _ hm with h1 | h1 | h1 | h1 <;> simp at h1
      subst htr
      constructor
      · intro pre post heq
        obtain ⟨pre2, hsplit, hpre⟩ := append_split_of_not_mem heq hnoready
        constructor
        · rw [hpre]
          exact List.mem_append_left _ hwt1
        · rw [hpre]
          exact List.mem_append_right _ (hguard pre2 post hsplit)
      · intro pre b post heq
        obtain ⟨pre2, hsplit, hpre⟩ := append_split_of_not_mem heq (hnomqtt b)
        rw [hpre]
        exact List.mem_append_left _ hwt1

/-- Witness for C9: concrete oracles in which association succeeds at
once and the broker connects on the first attempt; the READY_TO_SEND
write sits at index 5 of the iteration trace, and both a successful
association check and a successful connect attempt precede it. -/
theorem connectivity_sequencing_order_witness :
    Ev.wifiCheck true ∈ ([Ev.wifiCheck true, Ev.mqttCheck false,
        Ev.statusSet DeviceStatusEnum.NOT_READY, Ev.mqttCheck false,
        Ev.mqttConnect true] : List Ev) ∧
    Ev.mqttConnect true ∈ ([Ev.wifiCheck true, Ev.mqttCheck false,
        Ev.statusSet DeviceStatusEnum.NOT_READY, Ev.mqttCheck false,
        Ev.mqttConnect true] : List Ev) :=
  (connectivity_sequencing_order (fun _ => true) (fun n => decide (2 ≤ n)) (fun _ => true)
      2 0 0 0
      [Ev.wifiCheck true, Ev.mqttCheck false, Ev.statusSet DeviceStatusEnum.NOT_READY,
       Ev.mqttCheck false, Ev.mqttConnect true,
       Ev.statusSet DeviceStatusEnum.READY_TO_SEND, Ev.mqttCheck true]
      1 3 1 (by decide)).1
    [Ev.wifiCheck true, Ev.mqttCheck false, Ev.statusSet DeviceStatusEnum.NOT_READY,
     Ev.mqttCheck false, Ev.mqttConnect true]
    [Ev.mqttCheck true] (by decide)
